import Mathlib

/-!
Verification of the time-and-pay computation core of the schedule-savvy
workforce-management application: hours derivation from clock times,
overtime splitting, payable-amount calculation, payroll computation,
roster-lock semantics, and the role-permission matrix.

JavaScript numbers are modelled as rationals (`ℚ`); all amounts involved
stay within exactly representable ranges.  Clock times are the minute
precision values produced by the HTML time inputs.  Database rows are
modelled as Lean structures and row collections as lists.
-/

namespace ScheduleSavvy

/-- A local clock time (hour, minute), as parsed from an `HH:MM` string. -/
structure ClockTime where
  hour : ℕ
  minute : ℕ
deriving DecidableEq, Repr

/-- Minutes since midnight, as a rational for duration arithmetic. -/
def ClockTime.toMinutes (t : ClockTime) : ℚ :=
  t.hour * 60 + t.minute

/-- `calculateTotalHours` of the first working-hours form
(`WorkingHours.tsx` lines 86–91): millisecond difference of the two
`Date` values converted to hours, clamped at zero with `Math.max(0, diff)`. -/
def calculateTotalHours (start_time end_time : ClockTime) : ℚ :=
  max 0 ((end_time.toMinutes - start_time.toMinutes) / 60)

/-- `calculateTotalHours` of the second working-hours form
(`WorkingHours.tsx` lines 652–657): the raw difference in hours, with no
clamp and no wrap-around. -/
def calculateTotalHoursRaw (start end_time : ClockTime) : ℚ :=
  (end_time.toMinutes - start.toMinutes) / 60

/-- `calculateTotalHours` of the roster creation view (`part_004` lines
97–110): difference in minutes, wrapped past midnight by adding `24 * 60`
when negative, then divided by 60. -/
def calculateTotalHoursWrap (start end_time : ClockTime) : ℚ :=
  let diffInMinutes := end_time.toMinutes - start.toMinutes
  (if diffInMinutes < 0 then diffInMinutes + 24 * 60 else diffInMinutes) / 60

/-- `calculatePayableAmount` (`WorkingHours.tsx` lines 93–99): regular
hours capped at 8, overtime beyond 8 paid at the 1.5 multiplier. -/
def calculatePayableAmount (actual_hours hourly_rate : ℚ) : ℚ :=
  let regularHours := min actual_hours 8
  let overtimeHours := max 0 (actual_hours - 8)
  let regularPay := regularHours * hourly_rate
  let overtimePay := overtimeHours * hourly_rate * 1.5
  regularPay + overtimePay

/-- Modelled from the spec: the payable-amount formula of §4.1/§8,
`min(actualHours,8)*hourlyRate + max(0,actualHours-8)*hourlyRate*1.5`,
stated for comparison with the source function. -/
def computePayableSpec (actualHours hourlyRate : ℚ) : ℚ :=
  min actualHours 8 * hourlyRate + max 0 (actualHours - 8) * hourlyRate * 1.5

/-- C1: for every `actualHours ≥ 0` and `hourlyRate ≥ 0`, the
payable-amount computation of the working-hours form returns
`min(actualHours,8)*hourlyRate + max(0,actualHours-8)*hourlyRate*1.5`. -/
theorem calculatePayableAmount_eq_spec (actualHours hourlyRate : ℚ)
    (hA : 0 ≤ actualHours) (hR : 0 ≤ hourlyRate) :
    calculatePayableAmount actualHours hourlyRate =
      computePayableSpec actualHours hourlyRate := by
  simp [calculatePayableAmount, computePayableSpec]

/-- C1 witness: at `actualHours = 10`, `hourlyRate = 20` the computation
returns `8×20 + 2×20×1.5 = 220`, via the main theorem. -/
theorem calculatePayableAmount_at_10_20 :
    calculatePayableAmount 10 20 = 220 := by
  have h := calculatePayableAmount_eq_spec 10 20 (by norm_num) (by norm_num)
  rw [h]
  show min (10 : ℚ) 8 * 20 + max 0 (10 - 8) * 20 * 1.5 = 220
  norm_num

/-- C4 counterexample: the second working-hours form's
`calculateTotalHours` (the variant at `WorkingHours.tsx` line 652) returns
a negative duration for start 17:00, end 09:00: it yields `-8`, neither
clamping to 0 nor wrapping by adding 24 hours. -/
theorem calculateTotalHoursRaw_neg :
    calculateTotalHoursRaw ⟨17, 0⟩ ⟨9, 0⟩ < 0 ∧
      calculateTotalHoursRaw ⟨17, 0⟩ ⟨9, 0⟩ = -8 := by
  constructor <;> norm_num [calculateTotalHoursRaw, ClockTime.toMinutes]

/-- C4 (amended): when `endTime ≥ startTime` all three elapsed-hours
variants return `endTime − startTime` in hours; when `endTime < startTime`
the first form's variant clamps to 0 and the roster variant wraps by
adding 24 hours, while the second form's variant returns the raw
(negative) difference; 09:00 → 17:00 gives exactly 8 in all three. -/
theorem calculateTotalHours_characterisation :
    (∀ s e : ClockTime,
        calculateTotalHours s e =
          (if s.toMinutes ≤ e.toMinutes then (e.toMinutes - s.toMinutes) / 60 else 0) ∧
        calculateTotalHoursRaw s e = (e.toMinutes - s.toMinutes) / 60 ∧
        calculateTotalHoursWrap s e =
          (if s.toMinutes ≤ e.toMinutes then (e.toMinutes - s.toMinutes) / 60
           else (e.toMinutes - s.toMinutes) / 60 + 24)) ∧
    calculateTotalHours ⟨9, 0⟩ ⟨17, 0⟩ = 8 ∧
    calculateTotalHoursRaw ⟨9, 0⟩ ⟨17, 0⟩ = 8 ∧
    calculateTotalHoursWrap ⟨9, 0⟩ ⟨17, 0⟩ = 8 := by
  refine ⟨fun s e => ⟨?_, rfl, ?_⟩, ?_, ?_, ?_⟩
  · rcases le_or_lt s.toMinutes e.toMinutes with h | h
    · rw [calculateTotalHours, if_pos h, max_eq_right]
      exact div_nonneg (by linarith) (by norm_num)
    · rw [calculateTotalHours, if_neg (not_le.mpr h), max_eq_left]
      exact le_of_lt (div_neg_of_neg_of_pos (by linarith) (by norm_num))
  · rcases le_or_lt s.toMinutes e.toMinutes with h | h
    · rw [calculateTotalHoursWrap, if_pos h]
      simp only [not_lt.mpr (by linarith : (0:ℚ) ≤ e.toMinutes - s.toMinutes), if_false]
    · rw [calculateTotalHoursWrap, if_neg (not_le.mpr h)]
      simp only [if_pos (by linarith : e.toMinutes - s.toMinutes < 0)]
      rw [add_div]
      norm_num
  · norm_num [calculateTotalHours, ClockTime.toMinutes]
  · norm_num [calculateTotalHoursRaw, ClockTime.toMinutes]
  · norm_num [calculateTotalHoursWrap, ClockTime.toMinutes]

/-- Status of a working-hour record (`pending`/`approved`/`rejected`/`paid`). -/
inductive WorkingHoursStatus
  | pending
  | approved
  | rejected
  | paid
deriving DecidableEq, Repr

/-- The derived-field part of a `working_hours` row as built by the
submission handlers (identity and reference columns omitted; they do not
enter the invariant). -/
structure WorkingHourRecord where
  total_hours : ℚ
  actual_hours : ℚ
  overtime_hours : ℚ
  hourly_rate : ℚ
  payable_amount : ℚ
  status : WorkingHoursStatus
deriving DecidableEq, Repr

/-- The overtime/payable invariant of the spec's data model:
`overtime_hours = max(0, actual_hours − 8)` and
`payable_amount = min(actual_hours, 8)×rate + overtime_hours×rate×1.5`. -/
def whInvariant (r : WorkingHourRecord) : Prop :=
  r.overtime_hours = max 0 (r.actual_hours - 8) ∧
  r.payable_amount =
    min r.actual_hours 8 * r.hourly_rate + r.overtime_hours * r.hourly_rate * 1.5

instance (r : WorkingHourRecord) : Decidable (whInvariant r) := by
  unfold whInvariant; infer_instance

/-- The row inserted by `handleSubmit` of the first working-hours form
(`WorkingHours.tsx` lines 127–155): `total_hours` comes from
`calculateTotalHours`, while `overtime_hours` and `payable_amount` are the
values maintained by the reactive recomputation at lines 110–118
(`calculatePayableAmount` and `Math.max(0, actual_hours - 8)`). -/
def workingHoursFormRecord (start_time end_time : ClockTime)
    (actual_hours hourly_rate : ℚ) : WorkingHourRecord :=
  { total_hours := calculateTotalHours start_time end_time
    actual_hours := actual_hours
    overtime_hours := max 0 (actual_hours - 8)
    hourly_rate := hourly_rate
    payable_amount := calculatePayableAmount actual_hours hourly_rate
    status := .pending }

/-- The row inserted by `submitWorkingHours` of the second working-hours
form (`WorkingHours.tsx` lines 674–711): `total_hours` from the unclamped
`calculateTotalHours` variant, `payable_amount = totalHours * hourlyRate`,
and `overtime_hours`/`actual_hours` taken directly from the form state. -/
def submitWorkingHoursRecord (startTime endTime : ClockTime)
    (actualHours overtimeHours hourlyRate : ℚ) : WorkingHourRecord :=
  let totalHours := calculateTotalHoursRaw startTime endTime
  { total_hours := totalHours
    actual_hours := actualHours
    overtime_hours := overtimeHours
    hourly_rate := hourlyRate
    payable_amount := totalHours * hourlyRate
    status := .pending }

/-- C2 counterexample: `submitWorkingHours` with start 09:00, end 19:00,
`actualHours = 10`, `overtimeHours = 0` (left at its initial form value),
`hourlyRate = 20` inserts a record with `overtime_hours = 0 ≠ 2` and
`payable_amount = 200 ≠ 220`, violating the claimed invariant. -/
theorem submitWorkingHours_violates_invariant :
    ¬ whInvariant (submitWorkingHoursRecord ⟨9, 0⟩ ⟨19, 0⟩ 10 0 20) := by
  intro h
  have h1 := h.1
  simp only [submitWorkingHoursRecord, whInvariant] at h1
  norm_num at h1

/-- C2 (amended): every record inserted by the first working-hours form's
`handleSubmit`, whose `overtime_hours` and `payable_amount` are derived by
the reactive recomputation, satisfies the overtime/payable invariant (the
`submitWorkingHours` and `createWorkingHour` handlers do not derive these
fields and need not satisfy it). -/
theorem workingHoursFormRecord_invariant (start_time end_time : ClockTime)
    (actual_hours hourly_rate : ℚ) :
    whInvariant (workingHoursFormRecord start_time end_time actual_hours hourly_rate) := by
  constructor
  · rfl
  · show calculatePayableAmount actual_hours hourly_rate = _
    simp only [workingHoursFormRecord, calculatePayableAmount]

/-- The fields of a linked working-hour row consulted by the roster lock
rule: its optional back-reference to a roster and its status. -/
structure LinkedWorkingHour where
  roster_id : Option String
  status : WorkingHoursStatus
deriving DecidableEq, Repr

/-- A roster row as consulted by the lock rule (`part_006`): identity and
the `is_locked` flag. -/
structure RosterEntry where
  id : String
  is_locked : Bool
deriving DecidableEq, Repr

/-- `getApprovedHoursForRoster` (`part_006` lines 205–209): the number of
working-hour rows linked to the roster with status `approved`. -/
def getApprovedHoursForRoster (workingHours : List LinkedWorkingHour)
    (rosterId : String) : ℕ :=
  (workingHours.filter fun wh =>
    wh.roster_id == some rosterId && wh.status == WorkingHoursStatus.approved).length

/-- `isRosterEditable` (`part_006` lines 211–214): editable iff no linked
approved working hour exists and the roster is not locked. -/
def isRosterEditable (workingHours : List LinkedWorkingHour)
    (roster : RosterEntry) : Bool :=
  (getApprovedHoursForRoster workingHours roster.id == 0) && !roster.is_locked

/-- C3: the roster-editability predicate returns `true` iff the number of
linked working-hour records with status `approved` is zero and the
roster's `is_locked` flag is `false`. -/
theorem isRosterEditable_iff (workingHours : List LinkedWorkingHour)
    (roster : RosterEntry) :
    isRosterEditable workingHours roster = true ↔
      (workingHours.filter fun wh =>
          wh.roster_id == some roster.id &&
            wh.status == WorkingHoursStatus.approved).length = 0 ∧
        roster.is_locked = false := by
  simp [isRosterEditable, getApprovedHoursForRoster]

/-- C10: the roster-editability predicate is antitone in the linked
working-hour list — if it is `false` on a list, it stays `false` after
appending any further record. -/
theorem isRosterEditable_antitone (workingHours : List LinkedWorkingHour)
    (roster : RosterEntry) (wh : LinkedWorkingHour)
    (h : isRosterEditable workingHours roster = false) :
    isRosterEditable (workingHours ++ [wh]) roster = false := by
  simp only [isRosterEditable, getApprovedHoursForRoster, List.filter_append,
    List.length_append, Bool.and_eq_false_iff, beq_eq_false_iff_ne, ne_eq,
    Bool.not_eq_false] at h ⊢
  rcases h with h | h
  · left
    omega
  · right
    exact h

/-- C10 witness: a locked roster with no linked records is not editable,
and stays non-editable after a pending record is appended. -/
theorem isRosterEditable_antitone_example :
    isRosterEditable ([] ++ [⟨some "r1", WorkingHoursStatus.pending⟩])
      ⟨"r1", true⟩ = false :=
  isRosterEditable_antitone [] ⟨"r1", true⟩
    ⟨some "r1", WorkingHoursStatus.pending⟩ (by decide)

/-- Status of a payroll record (`pending`/`approved`/`paid`). -/
inductive PayrollStatus
  | pending
  | approved
  | paid
deriving DecidableEq, Repr

/-- A `payroll` row with the fields written by the generation and edit
handlers. -/
structure PayrollRecord where
  profile_id : String
  pay_period_start : String
  pay_period_end : String
  total_hours : ℚ
  hourly_rate : ℚ
  gross_pay : ℚ
  deductions : ℚ
  net_pay : ℚ
  status : PayrollStatus
  bank_account_id : Option String
deriving DecidableEq, Repr

/-- `updatePayrollStatus` (`part_007` lines 150–173): sets the given
status on the row unconditionally. -/
def updatePayrollStatus (r : PayrollRecord) (status : PayrollStatus) : PayrollRecord :=
  { r with status := status }

/-- The payroll-list actions that invoke `updatePayrollStatus`: the
Approve button is rendered only when the row is `pending`, the Mark Paid
button only when it is `approved` (`part_007` lines 339–357). -/
inductive PayrollListAction
  | approve
  | markPaid
deriving DecidableEq, Repr

/-- One list-view button action applied to a row, with the render guard of
the source. -/
def applyListAction (a : PayrollListAction) (r : PayrollRecord) : PayrollRecord :=
  match a with
  | .approve =>
      if r.status = PayrollStatus.pending then updatePayrollStatus r .approved else r
  | .markPaid =>
      if r.status = PayrollStatus.approved then updatePayrollStatus r .paid else r

/-- A sequence of list-view button actions applied in order. -/
def applyListActions (actions : List PayrollListAction) (r : PayrollRecord) : PayrollRecord :=
  actions.foldl (fun r a => applyListAction a r) r

/-- Position of a status along `pending → approved → paid`. -/
def statusStage : PayrollStatus → ℕ
  | .pending => 0
  | .approved => 1
  | .paid => 2

/-- `calculatePayroll` of the payroll edit dialog (`part_003` lines
134–143): gross = hours × rate, net = gross − deductions, written back
into the form. Returns (grossPay, netPay). -/
def calculatePayrollDialog (total_hours hourly_rate deductions : ℚ) : ℚ × ℚ :=
  let grossPay := total_hours * hourly_rate
  let netPay := grossPay - deductions
  (grossPay, netPay)

/-- The edit-dialog form state submitted by `handleSubmit` of `part_003`
(`gross_pay` and `net_pay` are derived by `calculatePayrollDialog` before
submission and are not free fields). -/
structure PayrollForm where
  profile_id : String
  pay_period_start : String
  pay_period_end : String
  total_hours : ℚ
  hourly_rate : ℚ
  deductions : ℚ
  status : PayrollStatus
  bank_account_id : Option String
deriving DecidableEq, Repr

/-- `handleSubmit` of the payroll edit dialog (`part_003` lines 149–187):
overwrites every field of the targeted row from the form, with no guard on
the row's current status. -/
def payrollEditSubmit (r : PayrollRecord) (f : PayrollForm) : PayrollRecord :=
  { profile_id := f.profile_id
    pay_period_start := f.pay_period_start
    pay_period_end := f.pay_period_end
    total_hours := f.total_hours
    hourly_rate := f.hourly_rate
    gross_pay := (calculatePayrollDialog f.total_hours f.hourly_rate f.deductions).1
    deductions := f.deductions
    net_pay := (calculatePayrollDialog f.total_hours f.hourly_rate f.deductions).2
    status := f.status
    bank_account_id := f.bank_account_id }

/-- C5 counterexample: the payroll edit dialog reverts a `paid` record to
`pending` and changes its fields while it is paid — no operation guards
against it. -/
theorem payrollEditSubmit_breaks_monotonicity :
    (let rPaid : PayrollRecord :=
      ⟨"p1", "2025-01-01", "2025-01-31", 160, 20, 3200, 320, 2880, .paid, none⟩
     let fRevert : PayrollForm :=
      ⟨"p1", "2025-01-01", "2025-01-31", 160, 20, 999, .pending, none⟩
     rPaid.status = PayrollStatus.paid ∧
       (payrollEditSubmit rPaid fRevert).status = PayrollStatus.pending ∧
       (payrollEditSubmit rPaid fRevert).deductions ≠ rPaid.deductions) := by
  refine ⟨rfl, rfl, ?_⟩
  norm_num [payrollEditSubmit]

/-- C5 (amended): under the payroll list's button actions (the only
callers of `updatePayrollStatus`) a record's status only advances along
`pending → approved → paid`, and a `paid` record is left untouched by
every such sequence; the edit dialog's `handleSubmit`, however, rewrites
status and fields unconditionally. -/
theorem payrollListActions_monotone (actions : List PayrollListAction)
    (r : PayrollRecord) :
    statusStage r.status ≤ statusStage (applyListActions actions r).status ∧
      applyListActions actions { r with status := PayrollStatus.paid } =
        { r with status := PayrollStatus.paid } := by
  constructor
  · induction actions generalizing r with
    | nil => exact le_refl _
    | cons a as ih =>
        refine le_trans ?_ (ih (applyListAction a r))
        cases a <;> rw [applyListAction] <;> split_ifs with h <;>
          simp [h, updatePayrollStatus, statusStage]
  · induction actions with
    | nil => rfl
    | cons a as ih =>
        have hstep : applyListAction a { r with status := PayrollStatus.paid } =
            { r with status := PayrollStatus.paid } := by
          cases a <;> rw [applyListAction] <;> split_ifs with h <;> simp_all
        rw [applyListActions, List.foldl_cons, hstep]
        exact ih

/-- `generatePayroll` (`part_007` lines 87–147): the row inserted by the
payroll generation form — `grossPay = totalHours × hourlyRate`,
`deductions = grossPay × 0.1` (flat 10%), `netPay = grossPay − deductions`,
status `pending`. -/
def generatePayrollRecord (profile_id payPeriodStart payPeriodEnd : String)
    (totalHours hourlyRate : ℚ) (bankAccountId : Option String) : PayrollRecord :=
  let grossPay := totalHours * hourlyRate
  let deductions := grossPay * 0.1
  let netPay := grossPay - deductions
  { profile_id := profile_id
    pay_period_start := payPeriodStart
    pay_period_end := payPeriodEnd
    total_hours := totalHours
    hourly_rate := hourlyRate
    gross_pay := grossPay
    deductions := deductions
    net_pay := netPay
    status := .pending
    bank_account_id := bankAccountId }

/-- Result of the salary-sheet `calculatePayroll`. -/
structure PayrollCalc where
  gross : ℚ
  net : ℚ
deriving DecidableEq, Repr

/-- `calculatePayroll` (`SalarySheetManager.tsx` lines 404–408):
`gross = hours × rate`, `net = gross − deductions`, with the
caller-supplied deductions value. -/
def calculatePayroll (hours rate deductions : ℚ) : PayrollCalc :=
  let gross := hours * rate
  let net := gross - deductions
  ⟨gross, net⟩

/-- The salary-sheet creation form state (`SalarySheetManager.tsx`
lines 327–339). -/
structure SalarySheetForm where
  profile_id : String
  pay_period_start : String
  pay_period_end : String
  total_hours : ℚ
  hourly_rate : ℚ
  deductions : ℚ
  status : PayrollStatus
deriving DecidableEq, Repr

/-- `handleSubmit` of the salary-sheet creation form
(`SalarySheetManager.tsx` lines 410–423): inserts the form data with
`gross_pay`/`net_pay` from `calculatePayroll`, keeping the user-entered
`deductions` unchanged. -/
def salarySheetSubmitRecord (f : SalarySheetForm) : PayrollRecord :=
  let computed := calculatePayroll f.total_hours f.hourly_rate f.deductions
  { profile_id := f.profile_id
    pay_period_start := f.pay_period_start
    pay_period_end := f.pay_period_end
    total_hours := f.total_hours
    hourly_rate := f.hourly_rate
    gross_pay := computed.gross
    deductions := f.deductions
    net_pay := computed.net
    status := f.status
    bank_account_id := none }

/-- C8: the payroll generation form produces
`grossPay = totalHours × hourlyRate`, `deductions = 0.1 × grossPay` and
`netPay = grossPay − deductions`, while the salary-sheet creation form
uses the caller-supplied deductions value unchanged. -/
theorem payroll_deduction_policies :
    (∀ (p s e : String) (h r : ℚ) (b : Option String),
        (generatePayrollRecord p s e h r b).gross_pay = h * r ∧
        (generatePayrollRecord p s e h r b).deductions =
          0.1 * (generatePayrollRecord p s e h r b).gross_pay ∧
        (generatePayrollRecord p s e h r b).net_pay =
          (generatePayrollRecord p s e h r b).gross_pay -
            (generatePayrollRecord p s e h r b).deductions) ∧
    (∀ f : SalarySheetForm,
        (salarySheetSubmitRecord f).deductions = f.deductions ∧
        (salarySheetSubmitRecord f).gross_pay = f.total_hours * f.hourly_rate ∧
        (salarySheetSubmitRecord f).net_pay =
          f.total_hours * f.hourly_rate - f.deductions) := by
  refine ⟨fun p s e h r b => ⟨rfl, ?_, rfl⟩, fun f => ⟨rfl, rfl, rfl⟩⟩
  show h * r * 0.1 = 0.1 * (h * r)
  ring

/-- C9: both net-pay computations are total functions returning exactly
`grossPay − deductions` for every input; when deductions exceed gross the
result is negative rather than rejected (e.g. hours 10, rate 5,
deductions 60 gives net −10). -/
theorem computeNet_total :
    (∀ h r d : ℚ,
        (calculatePayroll h r d).net = (calculatePayroll h r d).gross - d ∧
        (calculatePayrollDialog h r d).2 = (calculatePayrollDialog h r d).1 - d) ∧
    (calculatePayroll 10 5 60).net = -10 ∧ (calculatePayroll 10 5 60).net < 0 := by
  refine ⟨fun h r d => ⟨rfl, rfl⟩, ?_, ?_⟩ <;> norm_num [calculatePayroll]

/-- The sentinel UUID used by the delete-all idiom of
`updateRolePermissions` (`.neq('id', '00000000-...')`). -/
def zeroUuid : String := "00000000-0000-0000-0000-000000000000"

/-- A `role_permissions` row: backend-generated id plus the
(role, permission) pair. -/
structure RolePermissionRow where
  id : String
  role : String
  permission : String
deriving DecidableEq, Repr

/-- The rows that `updateRolePermissions` (`part_001` lines 119–160)
builds for insertion: every (role, permission) pair enumerated from the
in-memory matrix entries. -/
def permissionsToInsert (rolePermissions : List (String × List String)) :
    List (String × String) :=
  rolePermissions.flatMap fun entry => entry.2.map fun permission => (entry.1, permission)

/-- `updateRolePermissions` (`part_001` lines 119–160): delete every row
whose id differs from the sentinel UUID, then insert the enumerated pairs
(skipping the insert call when there are none). Inserted rows receive
backend-generated ids, modelled by `newId`. -/
def updateRolePermissions (rows : List RolePermissionRow)
    (rolePermissions : List (String × List String)) (newId : ℕ → String) :
    List RolePermissionRow :=
  let remaining := rows.filter fun r => r.id == zeroUuid
  let toInsert := permissionsToInsert rolePermissions
  if toInsert = [] then remaining
  else
    remaining ++ toInsert.enum.map fun ip =>
      { id := newId ip.1, role := ip.2.1, permission := ip.2.2 }

/-- The (role, permission) pairs held by a row collection. -/
def rowPairs (rows : List RolePermissionRow) : List (String × String) :=
  rows.map fun r => (r.role, r.permission)

/-- C6 counterexample: the delete step keeps any row whose id equals the
sentinel UUID, so from a prior state holding such a row the save with an
empty matrix does not leave exactly the new (empty) pair set. -/
theorem updateRolePermissions_keeps_sentinel_row :
    rowPairs (updateRolePermissions [⟨zeroUuid, "admin", "dashboard_view"⟩]
        [] (fun _ => "generated")) = [("admin", "dashboard_view")] ∧
      permissionsToInsert [] = [] := by
  constructor <;> rfl

/-- C6 (amended): for every prior collection state in which no row carries
the sentinel UUID (always the case for backend-generated ids), saving the
matrix leaves exactly the (role, permission) pairs enumerated from it:
all prior rows are deleted and the full new set is inserted. -/
theorem updateRolePermissions_replaces (rows : List RolePermissionRow)
    (rolePermissions : List (String × List String)) (newId : ℕ → String)
    (hids : ∀ r ∈ rows, r.id ≠ zeroUuid) :
    rowPairs (updateRolePermissions rows rolePermissions newId) =
      permissionsToInsert rolePermissions := by
  have hrem : rows.filter (fun r => r.id == zeroUuid) = [] := by
    rw [List.filter_eq_nil_iff]
    intro r hr
    simpa using hids r hr
  rw [updateRolePermissions]
  split_ifs with hempty
  · simp [hrem, rowPairs, hempty]
  · simp only [hrem, List.nil_append, rowPairs, List.map_map]
    have : ((fun r : RolePermissionRow => (r.role, r.permission)) ∘
        fun ip : ℕ × String × String =>
          RolePermissionRow.mk (newId ip.1) ip.2.1 ip.2.2) =
        fun ip : ℕ × String × String => ip.2 := by
      funext ip
      rfl
    rw [this, List.enum_map_snd]

/-- C6 witness: replacing a one-row collection (with a normal id) by the
matrix `employee ↦ [dashboard_view]` leaves exactly that one pair. -/
theorem updateRolePermissions_replaces_example :
    rowPairs (updateRolePermissions [⟨"a1", "admin", "payroll_view"⟩]
        [("employee", ["dashboard_view"])] (fun _ => "generated")) =
      [("employee", "dashboard_view")] :=
  (updateRolePermissions_replaces [⟨"a1", "admin", "payroll_view"⟩]
    [("employee", ["dashboard_view"])] (fun _ => "generated")
    (by decide)).trans rfl

/-- `togglePermission` (`part_001` lines 162–174) on the in-memory matrix
(role → permission list, absent roles reading as the empty list): removes
the permission when present, appends it when absent. -/
def togglePermission (rolePermissions : String → List String)
    (role permission : String) : String → List String :=
  fun r =>
    if r = role then
      let currentPermissions := rolePermissions role
      if permission ∈ currentPermissions then
        currentPermissions.filter fun p => p != permission
      else
        currentPermissions ++ [permission]
    else rolePermissions r

/-- Evaluating `togglePermission` at the toggled role itself. -/
theorem togglePermission_self (rolePermissions : String → List String)
    (role permission : String) :
    togglePermission rolePermissions role permission role =
      (if permission ∈ rolePermissions role then
        (rolePermissions role).filter fun p => p != permission
       else rolePermissions role ++ [permission]) := by
  simp [togglePermission]

/-- C7: toggling the same (role, permission) twice returns the matrix to
its original state — each role holds the same set of permissions. -/
theorem togglePermission_involutive (rolePermissions : String → List String)
    (role permission r p : String) :
    (p ∈ togglePermission (togglePermission rolePermissions role permission)
        role permission r ↔ p ∈ rolePermissions r) := by
  by_cases hr : r = role
  · subst hr
    rw [togglePermission_self, togglePermission_self]
    by_cases hmem : permission ∈ rolePermissions r
    · rw [if_pos hmem]
      have hout : permission ∉ (rolePermissions r).filter fun p => p != permission := by
        simp [List.mem_filter]
      rw [if_neg hout]
      simp only [List.mem_append, List.mem_filter, List.mem_singleton, bne_iff_ne, ne_eq]
      constructor
      · rintro (⟨hp, _⟩ | hp)
        · exact hp
        · subst hp; exact hmem
      · intro hp
        by_cases hpq : p = permission
        · right; exact hpq
        · left; exact ⟨hp, hpq⟩
    · rw [if_neg hmem]
      have hin : permission ∈ rolePermissions r ++ [permission] := by
        simp
      rw [if_pos hin]
      rw [List.filter_append]
      have h1 : (rolePermissions r).filter (fun p => p != permission) =
          rolePermissions r := by
        rw [List.filter_eq_self]
        intro a ha
        simp only [bne_iff_ne, ne_eq, decide_eq_true_eq]
        rintro rfl
        exact hmem ha
      have h2 : [permission].filter (fun p => p != permission) = [] := by
        simp
      rw [h1, h2, List.append_nil]
  · simp only [togglePermission, if_neg hr]

end ScheduleSavvy
